import Mathlib

/-!
Shallow embedding of `src/fetch_videos.py`: the title-to-identity
resolution and popularity-gating pipeline that rebuilds the video
catalogue (`docs/data/videos.json`).

Conventions of the embedding:
* Timestamps are seconds since the epoch as `Nat`; the day-precision
  `published` field (`pub.isoformat()[:10]` in the source) is modelled as
  the day index `publishedAt / 86400`, which is order-isomorphic to the
  ISO date string the source writes.
* Python dictionaries used only through `get` are association lists with
  first-match lookup; insertion (`d[k] = v`) removes any earlier binding.
* The Python `set` `MAPS` is iterated when picking a map.  Set iteration
  order for strings is not fixed across interpreter processes (hash
  randomisation), so the pipeline takes the enumeration order of `MAPS`
  as an explicit parameter `mapsOrder`; a real run uses some permutation
  of `MAPS`.
* Network results (ranking payload, duration responses, upload pages)
  are inputs; an exception in the ranking fetch is the `none` payload.
-/

/-- Threshold for showing a player in the dropdown (`MIN_VIDEOS = 10`). -/
def MIN_VIDEOS : Nat := 10

/-- Videos of at most this many seconds are treated as Shorts (`SHORTS_MAXS = 60`). -/
def SHORTS_MAXS : Nat := 60

/-- The fixed set of known map names (`MAPS`), listed in the order written
in the source; membership tests do not depend on the order. -/
def MAPS : List String :=
  ["mirage", "inferno", "nuke", "ancient", "anubis", "vertigo", "overpass", "dust2"]

/-- Stopword set: `BLACKLIST = MAPS | \x7b"faceit","pov",...\x7d`. -/
def BLACKLIST : List String :=
  MAPS ++ ["faceit", "pov", "demo", "highlights", "highlight", "ranked", "cs2", "vs", "clutch"]

/-- Seconds in a day, used to model day-precision dates. -/
def secondsPerDay : Nat := 86400

/-- The lookback horizon: `timedelta(days=18 * 30)` in seconds. -/
def horizonSeconds : Nat := 18 * 30 * secondsPerDay

/-- Run-start cutoff: `CUTOFF = now - timedelta(days=18*30)`. -/
def cutoffOf (runTime : Nat) : Nat := runTime - horizonSeconds

/-- ASCII lowercasing of a string, modelling `str.lower()` on the ASCII
titles and nicknames the pipeline handles. -/
def lowerStr (s : String) : String := (s.data.map Char.toLower).asString

/-- Character class of the nickname token shape `[A-Za-z0-9_\-]`. -/
def isTokenChar (c : Char) : Bool := c.isAlphanum || c = '_' || c = '-'

/-- Tokenizer: `TOKEN.findall(title)` for `TOKEN = [A-Za-z0-9_\-]\x7b3,16\x7d`.
The regex scanner repeatedly takes a greedy chunk of at most 16 token
characters from the current run; a chunk shorter than 3 cannot match at
any position inside the leftover run, so the leftover is skipped.  The
fuel argument (at least the list length) makes the recursion structural. -/
def findTokensFuel : Nat → List Char → List String
  | 0, _ => []
  | _, [] => []
  | fuel + 1, c :: cs =>
    if isTokenChar c then
      let tok := List.take 16 (List.takeWhile isTokenChar (c :: cs))
      if 3 ≤ tok.length then
        tok.asString :: findTokensFuel fuel (List.drop tok.length (c :: cs))
      else
        findTokensFuel fuel (List.dropWhile isTokenChar (c :: cs))
    else
      findTokensFuel fuel cs

/-- All token-shaped substrings of a title, in left-to-right order. -/
def findTokens (l : List Char) : List String := findTokensFuel l.length l

/-- Boolean infix test on character lists (`pat in hay` for strings). -/
def hasInfix (hay pat : List Char) : Bool :=
  match hay with
  | [] => pat.isEmpty
  | c :: rest => pat.isPrefixOf (c :: rest) || hasInfix rest pat

/-- Python's substring containment `pat in s`. -/
def strContains (s pat : String) : Bool := hasInfix s.data pat.data

/-- Numeric value of a decimal digit character. -/
def digitVal (c : Char) : Nat := c.toNat - '0'.toNat

/-- Decimal reading of a digit run, modelling `int(...)`. -/
def natOfDigits (ds : List Char) : Nat := ds.foldl (fun acc c => 10 * acc + digitVal c) 0

/-- One optional group `(?:(\d+)X)?` of the duration regex: it consumes a
nonempty digit run immediately followed by the marker, else consumes
nothing and contributes 0 (`int(m.group(i) or 0)`). -/
def isoGroup (marker : Char) (l : List Char) : Nat × List Char :=
  let ds := l.takeWhile Char.isDigit
  match l.dropWhile Char.isDigit with
  | c :: rest => if ds.isEmpty then (0, l) else if c = marker then (natOfDigits ds, rest) else (0, l)
  | [] => (0, l)

/-- Full match of `PT(?:(\d+)H)?(?:(\d+)M)?(?:(\d+)S)?` against the whole
string, returning the three group values when the match succeeds. -/
def parseIsoDuration (s : String) : Option (Nat × Nat × Nat) :=
  match s.data with
  | 'P' :: 'T' :: rest =>
    let hr := isoGroup 'H' rest
    let mr := isoGroup 'M' hr.2
    let sr := isoGroup 'S' mr.2
    if sr.2.isEmpty then some (hr.1, mr.1, sr.1) else none
  | _ => none

/-- ISO8601 `PT#H#M#S` to seconds; any string that does not fully match
the pattern yields 0 (`duration_to_seconds`). -/
def duration_to_seconds (iso : String) : Nat :=
  match parseIsoDuration iso with
  | some (h, m, s) => h * 3600 + m * 60 + s
  | none => 0

/-- Association-list lookup modelling `dict.get(k)`. -/
def dictGet (d : List (String × String)) (k : String) : Option String :=
  (d.find? (fun kv => kv.1 == k)).map (fun kv => kv.2)

/-- Dictionary insertion `d[k] = v`: the new binding replaces any old one. -/
def dictSet (d : List (String × String)) (k v : String) : List (String × String) :=
  (k, v) :: d.filter (fun kv => kv.1 != k)

/-- One player object of the ranking payload (`p.get("playerName")`). -/
structure RankingPlayer where
  playerName : Option String
deriving Repr, DecidableEq

/-- One team object of the ranking payload; field names vary across
deployments (`teamName` vs `name`), and `ranking` lists the players. -/
structure RankingTeam where
  teamName : Option String
  name : Option String
  ranking : List RankingPlayer
deriving Repr, DecidableEq

/-- Python truthiness fallback `a or b` for optional strings: `None` and
the empty string fall through to `b`. -/
def orFalsy (a : Option String) (b : String) : String :=
  match a with
  | some s => if s = "" then b else s
  | none => b

/-- Display name of a team: `team.get("teamName") or team.get("name") or "unknown"`. -/
def teamDisplayName (t : RankingTeam) : String :=
  orFalsy t.teamName (orFalsy t.name "unknown")

/-- Accumulate one team of the payload into `(whitelist, nick_to_team)`;
players with a falsy `playerName` are skipped. -/
def addTeam (acc : List String × List (String × String)) (t : RankingTeam) :
    List String × List (String × String) :=
  t.ranking.foldl
    (fun acc p =>
      match p.playerName with
      | some nick =>
        if nick = "" then acc
        else (nick :: acc.1, dictSet acc.2 nick (teamDisplayName t))
      | none => acc)
    acc

/-- Whitelist construction `fetch_top_players()`: on a successful fetch
(`some` payload) it folds the teams into `(whitelist, nick_to_team)`;
an exception (the `none` payload) yields `(set(), \x7b\x7d)`. -/
def fetch_top_players (response : Option (List RankingTeam)) :
    List String × List (String × String) :=
  match response with
  | some teams => teams.foldl addTeam ([], [])
  | none => ([], [])

/-- One upload record as fed to the main loop: video id, title, channel
label and publish instant. -/
structure UploadRecord where
  id : String
  title : String
  channelLabel : String
  publishedAt : Nat
deriving Repr, DecidableEq

/-- One entry of the output catalogue (`videos.json`); `published` is the
day index of the publish instant (day-precision date). -/
structure VideoEntry where
  id : String
  title : String
  channel : String
  player : Option String
  team : Option String
  map : Option String
  published : Nat
deriving Repr, DecidableEq

/-- Seconds credited to a video id: `durations.get(vid, 0)`, where the
duration dictionary stores `duration_to_seconds` of the response strings. -/
def effectiveDuration (durs : List (String × String)) (vid : String) : Nat :=
  match dictGet durs vid with
  | some iso => duration_to_seconds iso
  | none => 0

/-- Eligibility of one candidate token: lowercased it must be in the
lowercased whitelist and not in the blacklist. -/
def eligibleNick (wlLc : List String) (t : String) : Bool :=
  wlLc.contains (lowerStr t) && !(BLACKLIST.contains (lowerStr t))

/-- Resolver: the first eligible token of the title, in extraction order
(`next((t for t in tokens if ...), None)`). -/
def resolveNick (wlLc : List String) (tokens : List String) : Option String :=
  tokens.find? (eligibleNick wlLc)

/-- Map pick: the first enumerated map name contained in the lowercased
title (`next((m for m in MAPS if m in lower), None)`). -/
def pickMap (mapsOrder : List String) (lower : String) : Option String :=
  mapsOrder.find? (fun m => strContains lower m)

/-- Processing of one upload record inside the main loop: window check,
Shorts check, identity resolution, team lookup and map pick; `none` means
the record is skipped (`continue`). -/
def recordEntry (cutoff : Nat) (wlLc : List String) (nickTeam : List (String × String))
    (mapsOrder : List String) (durs : List (String × String)) (r : UploadRecord) :
    Option VideoEntry :=
  if r.publishedAt < cutoff then none
  else if strContains (lowerStr r.title) "#shorts" || effectiveDuration durs r.id ≤ SHORTS_MAXS then
    none
  else
    let nick := resolveNick wlLc (findTokens r.title.data)
    some { id := r.id
           title := r.title
           channel := r.channelLabel
           player := nick
           team := match nick with
                   | some n => dictGet nickTeam n
                   | none => none
           map := pickMap mapsOrder (lowerStr r.title)
           published := r.publishedAt / secondsPerDay }

/-- Occurrences of nickname `p` among the pre-gate entries; equal to the
`Counter` value `counter[p]`, which is incremented exactly once per
appended record whose resolver verdict is `p`. -/
def counterOf (es : List VideoEntry) (p : String) : Nat :=
  List.countP (fun e => e.player == some p) es

/-- Popularity gate on one entry: a resolved player not in the keep set is
cleared; every other field is left alone. -/
def gateOne (keep : String → Bool) (v : VideoEntry) : VideoEntry :=
  match v.player with
  | some p => if keep p then v else { v with player := none }
  | none => v

/-- Comparator of the final sort: newest first by day-precision date
(`vids.sort(key=published, reverse=True)`). -/
def sortKeyLe (a b : VideoEntry) : Bool := decide (b.published ≤ a.published)

/-- Stable insertion for the final sort. -/
def sortInsert (a : VideoEntry) : List VideoEntry → List VideoEntry
  | [] => [a]
  | b :: l => if sortKeyLe a b then a :: b :: l else b :: sortInsert a l

/-- Stable sort, newest first.  Python's `list.sort` is stable, and a
stable sort under a total comparator is unique, so any stable sort models
it faithfully. -/
def sortVids : List VideoEntry → List VideoEntry
  | [] => []
  | a :: l => sortInsert a (sortVids l)

/-- Core pipeline over the flattened upload records, after the whitelist
has been fetched and lowercased: per-record processing, popularity gate,
final sort. -/
def runPipeline (cutoff : Nat) (wlLc : List String) (nickTeam : List (String × String))
    (mapsOrder : List String) (durs : List (String × String))
    (records : List UploadRecord) : List VideoEntry :=
  let raw := records.filterMap (recordEntry cutoff wlLc nickTeam mapsOrder durs)
  let gated := raw.map (gateOne (fun p => decide (MIN_VIDEOS ≤ counterOf raw p)))
  sortVids gated

/-- Whole run `main()`: fetch the whitelist, lowercase it, run the
pipeline over the enumerated records with the run-start cutoff. -/
def mainPipeline (runTime : Nat) (response : Option (List RankingTeam))
    (mapsOrder : List String) (durs : List (String × String))
    (records : List UploadRecord) : List VideoEntry :=
  let wl := fetch_top_players response
  runPipeline (cutoffOf runTime) (wl.1.map lowerStr) wl.2 mapsOrder durs records

/-- JSON rendering of a string field (titles and ids here need no escapes). -/
def jsonString (s : String) : String := "\"" ++ s ++ "\""

/-- JSON rendering of a nullable string field. -/
def jsonOpt (o : Option String) : String :=
  match o with
  | some s => jsonString s
  | none => "null"

/-- JSON rendering of one catalogue entry, keys in insertion order. -/
def jsonOfEntry (e : VideoEntry) : String :=
  "\x7b\"id\": " ++ jsonString e.id ++ ", \"title\": " ++ jsonString e.title ++
  ", \"channel\": " ++ jsonString e.channel ++ ", \"player\": " ++ jsonOpt e.player ++
  ", \"team\": " ++ jsonOpt e.team ++ ", \"map\": " ++ jsonOpt e.map ++
  ", \"published\": " ++ toString e.published ++ "\x7d"

/-- Serialization of the catalogue (`json.dumps(vids)` up to whitespace). -/
def serializeCatalog (es : List VideoEntry) : String :=
  "[" ++ String.intercalate ", " (es.map jsonOfEntry) ++ "]"

/-- Concrete ranking payload with one team whose player is `FakerNick`. -/
def samplePayload : List RankingTeam := [⟨some "T1", none, [⟨some "FakerNick"⟩]⟩]

/-- Concrete upload record whose title carries the nickname in a casing
different from the whitelist's canonical `FakerNick`. -/
def mismatchRec (i : Nat) : UploadRecord :=
  ⟨"v" ++ toString i, "fakernick pov clip", "lim", 1690000000⟩

/-- Ten such records with distinct ids `v0`..`v9`. -/
def mismatchRecs : List UploadRecord := (List.range 10).map mismatchRec

/-- Duration responses (10 minutes each) for the ids `v0`..`v9`. -/
def sampleDurs : List (String × String) :=
  (List.range 10).map (fun i => ("v" ++ toString i, "PT10M"))

/-- Entry the pipeline produces for `mismatchRec 1` before the gate. -/
def sampleEntryMismatch : VideoEntry :=
  ⟨"v1", "fakernick pov clip", "lim", some "fakernick", none, none, 19560⟩

/-- First entry of the gated catalogue over `mismatchRecs`. -/
def keptEntry : VideoEntry :=
  ⟨"v0", "fakernick pov clip", "lim", some "fakernick", none, none, 19560⟩

/-- First entry of the catalogue in the degraded-whitelist run. -/
def nullPlayerEntry : VideoEntry :=
  ⟨"v0", "fakernick pov clip", "lim", none, none, none, 19560⟩

/-- Record used twice to model the same video id seen on two pages. -/
def dupRec : UploadRecord := ⟨"v1", "fakernick pov clip", "lim", 1690000000⟩

/-- Record whose title contains two known map names. -/
def twoMapRec : UploadRecord := ⟨"v1", "FakerNick on Mirage and Inferno", "lim", 1690000000⟩

/-- Another enumeration order of `MAPS`, starting at `inferno`, as another
interpreter process may iterate the set. -/
def mapsOrderAlt : List String :=
  ["inferno", "mirage", "nuke", "ancient", "anubis", "vertigo", "overpass", "dust2"]

/-- Record whose id has no entry in the duration response. -/
def unknownDurRec : UploadRecord := ⟨"vX", "fakernick pov clip", "lim", 1690000000⟩

/-- Resolver verdict of one record, among the records that reach the
catalogue: `true` iff the record passes the window and Shorts filters and
its title resolves to nickname `p`. -/
def resolvesTo (cutoff : Nat) (wlLc : List String) (nickTeam : List (String × String))
    (mapsOrder : List String) (durs : List (String × String))
    (r : UploadRecord) (p : String) : Bool :=
  match recordEntry cutoff wlLc nickTeam mapsOrder durs r with
  | some e => e.player == some p
  | none => false

/-- Number of records of the run that resolve to nickname `p`; this is
the `Counter` value consulted by the popularity gate. -/
def resolvedCount (cutoff : Nat) (wlLc : List String) (nickTeam : List (String × String))
    (mapsOrder : List String) (durs : List (String × String))
    (records : List UploadRecord) (p : String) : Nat :=
  List.countP (fun r => resolvesTo cutoff wlLc nickTeam mapsOrder durs r p) records

/-- The leftmost element of `l` satisfying `p` is `a`: some split of `l`
puts `a` at the border with every earlier element failing `p`. -/
def IsFirstWith (p : String → Bool) (l : List String) (a : String) : Prop :=
  ∃ l1 l2, l = l1 ++ a :: l2 ∧ p a = true ∧ ∀ x ∈ l1, p x = false

theorem sortInsert_perm (a : VideoEntry) (l : List VideoEntry) :
    (sortInsert a l).Perm (a :: l) := by
  induction l with
  | nil => simp [sortInsert]
  | cons b l ih =>
    unfold sortInsert
    split
    · exact List.Perm.refl _
    · exact ((ih.cons b).trans (List.Perm.swap a b l))

theorem sortVids_perm (l : List VideoEntry) : (sortVids l).Perm l := by
  induction l with
  | nil => simp [sortVids]
  | cons a l ih => exact (sortInsert_perm a (sortVids l)).trans (ih.cons a)

theorem mem_sortVids {e : VideoEntry} {l : List VideoEntry} :
    e ∈ sortVids l ↔ e ∈ l :=
  (sortVids_perm l).mem_iff

theorem gateOne_fields (keep : String → Bool) (v : VideoEntry) :
    (gateOne keep v).id = v.id ∧ (gateOne keep v).title = v.title ∧
    (gateOne keep v).channel = v.channel ∧ (gateOne keep v).team = v.team ∧
    (gateOne keep v).map = v.map ∧ (gateOne keep v).published = v.published := by
  cases hv : v.player with
  | none => simp [gateOne, hv]
  | some p => by_cases hk : keep p = true <;> simp [gateOne, hv, hk]

theorem gateOne_player (keep : String → Bool) (v : VideoEntry) :
    (gateOne keep v).player =
      (match v.player with
       | some p => if keep p then some p else none
       | none => none) := by
  cases hv : v.player with
  | none => simp [gateOne, hv]
  | some p => by_cases hk : keep p = true <;> simp [gateOne, hv, hk]

theorem recordEntry_some_spec {cutoff : Nat} {wlLc : List String}
    {nickTeam : List (String × String)} {mapsOrder : List String}
    {durs : List (String × String)} {r : UploadRecord} {e : VideoEntry}
    (h : recordEntry cutoff wlLc nickTeam mapsOrder durs r = some e) :
    cutoff ≤ r.publishedAt ∧ e.id = r.id ∧ e.title = r.title ∧
    e.channel = r.channelLabel ∧ e.published = r.publishedAt / secondsPerDay ∧
    e.player = resolveNick wlLc (findTokens r.title.data) ∧
    e.team = (match resolveNick wlLc (findTokens r.title.data) with
              | some n => dictGet nickTeam n
              | none => none) ∧
    e.map = pickMap mapsOrder (lowerStr r.title) ∧
    strContains (lowerStr r.title) "#shorts" = false ∧
    SHORTS_MAXS < effectiveDuration durs r.id := by
  unfold recordEntry at h
  split at h
  · exact absurd h (by simp)
  next hw =>
    split at h
    next hs => exact absurd h (by simp)
    next hs =>
      rw [Option.some.injEq] at h
      subst h
      refine ⟨Nat.not_lt.mp hw, rfl, rfl, rfl, rfl, rfl, rfl, rfl, ?_, ?_⟩
      · cases hc : strContains (lowerStr r.title) "#shorts" with
        | false => rfl
        | true => exact absurd (by simp [hc]) hs
      · by_cases hd : effectiveDuration durs r.id ≤ SHORTS_MAXS
        · exact absurd (by simp [hd]) hs
        · omega

theorem mem_runPipeline {cutoff : Nat} {wlLc : List String}
    {nickTeam : List (String × String)} {mapsOrder : List String}
    {durs : List (String × String)} {records : List UploadRecord} {e : VideoEntry} :
    e ∈ runPipeline cutoff wlLc nickTeam mapsOrder durs records ↔
    ∃ v ∈ records.filterMap (recordEntry cutoff wlLc nickTeam mapsOrder durs),
      e = gateOne
        (fun p => decide (MIN_VIDEOS ≤
          counterOf (records.filterMap (recordEntry cutoff wlLc nickTeam mapsOrder durs)) p)) v := by
  unfold runPipeline
  rw [mem_sortVids, List.mem_map]
  constructor
  · rintro ⟨v, hv, he⟩
    exact ⟨v, hv, he.symm⟩
  · rintro ⟨v, hv, he⟩
    exact ⟨v, hv, he.symm⟩

theorem counterOf_filterMap (cutoff : Nat) (wlLc : List String)
    (nickTeam : List (String × String)) (mapsOrder : List String)
    (durs : List (String × String)) (records : List UploadRecord) (p : String) :
    counterOf (records.filterMap (recordEntry cutoff wlLc nickTeam mapsOrder durs)) p
      = resolvedCount cutoff wlLc nickTeam mapsOrder durs records p := by
  unfold counterOf resolvedCount
  rw [List.countP_filterMap]
  apply List.countP_congr
  intro r _
  unfold resolvesTo
  cases recordEntry cutoff wlLc nickTeam mapsOrder durs r <;> simp

theorem find?_eq_some_iff_first (p : String → Bool) (l : List String) (a : String) :
    l.find? p = some a ↔ IsFirstWith p l a := by
  induction l with
  | nil =>
    constructor
    · intro h
      simp [List.find?] at h
    · rintro ⟨l1, l2, h, -, -⟩
      cases l1 <;> simp at h
  | cons b l ih =>
    by_cases hb : p b = true
    · rw [List.find?_cons_of_pos _ hb]
      constructor
      · intro h
        rw [Option.some.injEq] at h
        subst h
        exact ⟨[], l, rfl, hb, by simp⟩
      · rintro ⟨l1, l2, heq, hpa, hf⟩
        cases l1 with
        | nil =>
          simp only [List.nil_append, List.cons.injEq] at heq
          rw [heq.1]
        | cons c l1 =>
          simp only [List.cons_append, List.cons.injEq] at heq
          have : p c = false := hf c (by simp)
          rw [← heq.1] at this
          rw [hb] at this
          exact absurd this (by simp)
    · rw [List.find?_cons_of_neg _ hb, ih]
      constructor
      · rintro ⟨l1, l2, heq, hpa, hf⟩
        refine ⟨b :: l1, l2, by rw [heq, List.cons_append], hpa, ?_⟩
        intro x hx
        rcases List.mem_cons.mp hx with hx | hx
        · rw [hx]
          exact Bool.eq_false_iff.mpr hb
        · exact hf x hx
      · rintro ⟨l1, l2, heq, hpa, hf⟩
        cases l1 with
        | nil =>
          simp only [List.nil_append, List.cons.injEq] at heq
          rw [← heq.1] at hpa
          exact absurd hpa hb
        | cons c l1 =>
          simp only [List.cons_append, List.cons.injEq] at heq
          exact ⟨l1, l2, heq.2, hpa, fun x hx => hf x (List.mem_cons_of_mem c hx)⟩

theorem resolveNick_nil (tokens : List String) : resolveNick [] tokens = none := by
  unfold resolveNick
  rw [List.find?_eq_none]
  intro t ht
  simp [eligibleNick]

theorem runPipeline_length (cutoff : Nat) (wlLc : List String)
    (nickTeam : List (String × String)) (mapsOrder : List String)
    (durs : List (String × String)) (records : List UploadRecord) :
    (runPipeline cutoff wlLc nickTeam mapsOrder durs records).length
      = (records.filterMap (recordEntry cutoff wlLc nickTeam mapsOrder durs)).length := by
  unfold runPipeline
  rw [(sortVids_perm _).length_eq, List.length_map]

theorem filterMap_recordEntry_ids (cutoff : Nat) (wlLc : List String)
    (nickTeam : List (String × String)) (mapsOrder : List String)
    (durs : List (String × String)) :
    ∀ records : List UploadRecord,
      List.Sublist
        ((records.filterMap (recordEntry cutoff wlLc nickTeam mapsOrder durs)).map VideoEntry.id)
        (records.map UploadRecord.id)
  | [] => by simp
  | r :: records => by
    rw [List.filterMap_cons]
    cases hre : recordEntry cutoff wlLc nickTeam mapsOrder durs r with
    | none =>
      simp only [List.map_cons]
      exact (filterMap_recordEntry_ids cutoff wlLc nickTeam mapsOrder durs records).cons _
    | some e =>
      simp only [List.map_cons]
      rw [(recordEntry_some_spec hre).2.1]
      exact (filterMap_recordEntry_ids cutoff wlLc nickTeam mapsOrder durs records).cons₂ _

theorem find?_eq_head?_filter (p : String → Bool) (l : List String) :
    l.find? p = (l.filter p).head? := by
  induction l with
  | nil => rfl
  | cons a l ih =>
    by_cases ha : p a = true
    · rw [List.find?_cons_of_pos _ ha, List.filter_cons_of_pos ha]
      rfl
    · rw [List.find?_cons_of_neg _ ha, List.filter_cons_of_neg ha, ih]

theorem find?_eq_of_perm_of_at_most_one {p : String → Bool} {l1 l2 : List String}
    (hperm : l1.Perm l2) (h : (l1.filter p).length ≤ 1) :
    l1.find? p = l2.find? p := by
  have hfp : (l1.filter p).Perm (l2.filter p) := hperm.filter p
  have heq : l1.filter p = l2.filter p := by
    cases hl : l1.filter p with
    | nil =>
      rw [hl] at hfp
      exact (List.perm_nil.mp hfp.symm).symm
    | cons a rest =>
      rw [hl] at hfp h
      cases rest with
      | nil => exact (List.perm_singleton.mp hfp.symm).symm
      | cons b rest => simp at h
  rw [find?_eq_head?_filter, find?_eq_head?_filter, heq]

theorem runPipeline_eq_of_raw_eq {cutoff : Nat} {wlLc : List String}
    {nickTeam : List (String × String)} {o1 o2 : List String}
    {durs : List (String × String)} {recsA recsB : List UploadRecord}
    (h : recsA.filterMap (recordEntry cutoff wlLc nickTeam o1 durs)
       = recsB.filterMap (recordEntry cutoff wlLc nickTeam o2 durs)) :
    runPipeline cutoff wlLc nickTeam o1 durs recsA
      = runPipeline cutoff wlLc nickTeam o2 durs recsB := by
  show sortVids ((recsA.filterMap (recordEntry cutoff wlLc nickTeam o1 durs)).map
      (gateOne (fun p => decide (MIN_VIDEOS ≤
        counterOf (recsA.filterMap (recordEntry cutoff wlLc nickTeam o1 durs)) p))))
    = sortVids ((recsB.filterMap (recordEntry cutoff wlLc nickTeam o2 durs)).map
      (gateOne (fun p => decide (MIN_VIDEOS ≤
        counterOf (recsB.filterMap (recordEntry cutoff wlLc nickTeam o2 durs)) p))))
  rw [h]

theorem recordEntry_none_of_durZero {cutoff : Nat} {wlLc : List String}
    {nickTeam : List (String × String)} {mapsOrder : List String}
    {durs : List (String × String)} {r : UploadRecord}
    (h : effectiveDuration durs r.id = 0) :
    recordEntry cutoff wlLc nickTeam mapsOrder durs r = none := by
  unfold recordEntry
  split
  · rfl
  · rw [if_pos]
    simp [h, SHORTS_MAXS]

/-- Claim C1 fails on the code: when the title's casing of a whitelisted
nickname differs from the canonical casing, the Resolver's verdict keeps
the title's casing (`fakernick`, not the whitelist's `FakerNick`), and
the team lookup at that title-cased string misses, yielding no team
instead of the whitelist's `T1`. -/
theorem c1_counterexample :
    fetch_top_players (some samplePayload) = (["FakerNick"], [("FakerNick", "T1")])
    ∧ (recordEntry (cutoffOf 1700000000) (["FakerNick"].map lowerStr) [("FakerNick", "T1")]
        MAPS sampleDurs (mismatchRec 1)).map (fun e => (e.player, e.team))
      = some (some "fakernick", none)
    ∧ (some "fakernick" : Option String) ≠ some "FakerNick"
    ∧ (none : Option String) ≠ some "T1" :=
  ⟨by decide, by decide, by decide, by decide⟩

/-- Claim C1 (amended): for every title with a candidate token that
case-insensitively matches a whitelist key, the Resolver's verdict is the
first eligible token with the casing it has in the title, and the
associated team is the `nick_to_team` lookup at that title-cased string —
which is the whitelist's team only when the title casing coincides with
the canonical casing, and absent otherwise. -/
theorem c1_title_casing_resolution {cutoff : Nat} {wlLc : List String}
    {nickTeam : List (String × String)} {mapsOrder : List String}
    {durs : List (String × String)} {r : UploadRecord} {e : VideoEntry}
    (h : recordEntry cutoff wlLc nickTeam mapsOrder durs r = some e) :
    (∀ n, e.player = some n →
      n ∈ findTokens r.title.data ∧ eligibleNick wlLc n = true
        ∧ e.team = dictGet nickTeam n)
    ∧ (e.player = none → e.team = none) := by
  obtain ⟨-, -, -, -, -, hp, ht, -, -, -⟩ := recordEntry_some_spec h
  unfold resolveNick at hp ht
  constructor
  · intro n hn
    rw [hp] at hn
    refine ⟨List.mem_of_find?_eq_some hn, List.find?_some hn, ?_⟩
    rw [hn] at ht
    exact ht
  · intro hn
    rw [hp] at hn
    rw [hn] at ht
    exact ht

/-- Witness for C1 (amended) at the concrete mismatched-casing record. -/
theorem c1_title_casing_resolution_witness :
    "fakernick" ∈ findTokens ("fakernick pov clip").data
    ∧ eligibleNick ["fakernick"] "fakernick" = true
    ∧ sampleEntryMismatch.team = dictGet [("FakerNick", "T1")] "fakernick" :=
  (@c1_title_casing_resolution (cutoffOf 1700000000) ["fakernick"] [("FakerNick", "T1")]
    MAPS sampleDurs (mismatchRec 1) sampleEntryMismatch (by decide)).1 "fakernick" (by decide)

/-- Claim C2 fails on the code: over ten records whose titles carry the
nickname in non-canonical casing, the final catalogue keeps the player
visible (the count meets the threshold) while the team is null, so an
entry with a non-null player and a null team does occur. -/
theorem c2_counterexample :
    ∃ e ∈ runPipeline (cutoffOf 1700000000) ["fakernick"] [("FakerNick", "T1")] MAPS
        sampleDurs mismatchRecs,
      e.player ≠ none ∧ e.team = none := by decide

/-- Claim C2 (amended): in every entry of the output catalogue with a
non-null player, the team equals the `nick_to_team` lookup at that exact
title-cased player string, which may be null when the title casing
differs from the canonical whitelist casing; entries with a null player
may retain a team only through the gate's soft suppression. -/
theorem c2_player_team_link {cutoff : Nat} {wlLc : List String}
    {nickTeam : List (String × String)} {mapsOrder : List String}
    {durs : List (String × String)} {records : List UploadRecord}
    {e : VideoEntry} {p : String}
    (he : e ∈ runPipeline cutoff wlLc nickTeam mapsOrder durs records)
    (hp : e.player = some p) :
    e.team = dictGet nickTeam p := by
  obtain ⟨v, hv, hev⟩ := mem_runPipeline.mp he
  obtain ⟨r, hr, hre⟩ := List.mem_filterMap.mp hv
  obtain ⟨-, -, -, -, -, hvp, hvt, -, -, -⟩ := recordEntry_some_spec hre
  subst hev
  rw [gateOne_player] at hp
  have hteam := (gateOne_fields (fun q => decide (MIN_VIDEOS ≤
    counterOf (records.filterMap (recordEntry cutoff wlLc nickTeam mapsOrder durs)) q)) v).2.2.2.1
  cases hq : v.player with
  | none =>
    simp only [hq] at hp
    exact absurd hp (by simp)
  | some q =>
    simp only [hq] at hp
    split at hp
    · rw [Option.some.injEq] at hp
      subst hp
      rw [hq] at hvp
      rw [← hvp] at hvt
      rw [hteam, hvt]
    · exact absurd hp (by simp)

/-- Witness for C2 (amended) at the kept mismatched-casing entry. -/
theorem c2_player_team_link_witness :
    keptEntry.team = dictGet [("FakerNick", "T1")] "fakernick" :=
  @c2_player_team_link (cutoffOf 1700000000) ["fakernick"] [("FakerNick", "T1")] MAPS
    sampleDurs mismatchRecs keptEntry "fakernick" (by decide) (by decide)

/-- Claim C3: the promotion threshold is `MIN_VIDEOS = 10`, and every
nickname appearing as a non-null player in at least one entry of the
final catalogue resolved in at least `MIN_VIDEOS` of the run's in-window
records; a nickname with fewer resolutions never stays visible. -/
theorem c3_threshold_invariant :
    MIN_VIDEOS = 10
    ∧ ∀ (cutoff : Nat) (wlLc : List String) (nickTeam : List (String × String))
        (mapsOrder : List String) (durs : List (String × String))
        (records : List UploadRecord) (p : String),
        (∃ e ∈ runPipeline cutoff wlLc nickTeam mapsOrder durs records, e.player = some p) →
        MIN_VIDEOS ≤ resolvedCount cutoff wlLc nickTeam mapsOrder durs records p := by
  refine ⟨rfl, ?_⟩
  intro cutoff wlLc nickTeam mapsOrder durs records p h
  obtain ⟨e, he, hp⟩ := h
  obtain ⟨v, hv, hev⟩ := mem_runPipeline.mp he
  subst hev
  rw [gateOne_player] at hp
  cases hq : v.player with
  | none =>
    simp only [hq] at hp
    exact absurd hp (by simp)
  | some q =>
    simp only [hq] at hp
    split at hp
    next hk =>
      rw [Option.some.injEq] at hp
      subst hp
      have hk' : MIN_VIDEOS ≤
          counterOf (records.filterMap (recordEntry cutoff wlLc nickTeam mapsOrder durs)) q :=
        of_decide_eq_true hk
      rw [counterOf_filterMap] at hk'
      exact hk'
    next => exact absurd hp (by simp)

/-- Witness for C3 at the ten mismatched-casing records. -/
theorem c3_threshold_invariant_witness :
    MIN_VIDEOS ≤ resolvedCount (cutoffOf 1700000000) ["fakernick"] [("FakerNick", "T1")]
      MAPS sampleDurs mismatchRecs "fakernick" :=
  c3_threshold_invariant.2 (cutoffOf 1700000000) ["fakernick"] [("FakerNick", "T1")]
    MAPS sampleDurs mismatchRecs "fakernick" (by decide)

/-- Claim C4: resolution returns the leftmost extracted token that is
eligible (case-insensitively in the whitelist and not in the blacklist),
returns none when no token qualifies, and on the title
`xyzzy FakerNick vs blacklistedword mirage` with whitelist `FakerNick`
it returns `FakerNick`. -/
theorem c4_leftmost_resolution :
    (∀ (wlLc tokens : List String) (n : String),
        resolveNick wlLc tokens = some n ↔ IsFirstWith (eligibleNick wlLc) tokens n)
    ∧ (∀ (wlLc tokens : List String),
        resolveNick wlLc tokens = none ↔ ∀ t ∈ tokens, eligibleNick wlLc t = false)
    ∧ resolveNick ["fakernick"] (findTokens "xyzzy FakerNick vs blacklistedword mirage".data)
        = some "FakerNick" := by
  refine ⟨fun wlLc tokens n => find?_eq_some_iff_first _ _ _, fun wlLc tokens => ?_, by decide⟩
  unfold resolveNick
  rw [List.find?_eq_none]
  constructor
  · intro h t ht
    exact Bool.eq_false_iff.mpr (h t ht)
  · intro h t ht
    rw [h t ht]
    simp

/-- Witness for C4: the concrete title's resolution is the leftmost
eligible token. -/
theorem c4_leftmost_resolution_witness :
    IsFirstWith (eligibleNick ["fakernick"])
      (findTokens "xyzzy FakerNick vs blacklistedword mirage".data) "FakerNick" :=
  (c4_leftmost_resolution.1 ["fakernick"]
    (findTokens "xyzzy FakerNick vs blacklistedword mirage".data) "FakerNick").mp
    c4_leftmost_resolution.2.2

/-- Claim C5: the horizon is 18*30 days before the run's start instant,
and every entry of the output catalogue stems from an enumerated record
whose publish instant is at or after that cutoff, with the entry's id and
day-precision date taken from that record; records published before the
cutoff never appear. -/
theorem c5_window_invariant :
    (∀ runTime : Nat, cutoffOf runTime = runTime - 18 * 30 * 86400)
    ∧ ∀ (runTime : Nat) (wlLc : List String) (nickTeam : List (String × String))
        (mapsOrder : List String) (durs : List (String × String))
        (records : List UploadRecord) (e : VideoEntry),
        e ∈ runPipeline (cutoffOf runTime) wlLc nickTeam mapsOrder durs records →
        ∃ r ∈ records, cutoffOf runTime ≤ r.publishedAt ∧ e.id = r.id
          ∧ e.published = r.publishedAt / secondsPerDay := by
  refine ⟨fun runTime => rfl, ?_⟩
  intro runTime wlLc nickTeam mapsOrder durs records e he
  obtain ⟨v, hv, hev⟩ := mem_runPipeline.mp he
  obtain ⟨r, hr, hre⟩ := List.mem_filterMap.mp hv
  obtain ⟨hcut, hid, -, -, hpub, -, -, -, -, -⟩ := recordEntry_some_spec hre
  subst hev
  have hf := gateOne_fields (fun p => decide (MIN_VIDEOS ≤
    counterOf (records.filterMap
      (recordEntry (cutoffOf runTime) wlLc nickTeam mapsOrder durs)) p)) v
  exact ⟨r, hr, hcut, by rw [hf.1, hid], by rw [hf.2.2.2.2.2, hpub]⟩

/-- Witness for C5 at the kept concrete entry. -/
theorem c5_window_invariant_witness :
    ∃ r ∈ mismatchRecs, cutoffOf 1700000000 ≤ r.publishedAt ∧ keptEntry.id = r.id
      ∧ keptEntry.published = r.publishedAt / secondsPerDay :=
  c5_window_invariant.2 1700000000 ["fakernick"] [("FakerNick", "T1")] MAPS sampleDurs
    mismatchRecs keptEntry (by decide)

/-- Claim C6: the popularity gate changes only the `player` field — id,
title, channel, team, map and published are untouched — and it clears the
player exactly on entries whose resolved player counts below the
threshold, keeping the previously-resolved team. -/
theorem c6_gate_frame (raw : List VideoEntry) (v : VideoEntry) :
    ((gateOne (fun p => decide (MIN_VIDEOS ≤ counterOf raw p)) v).id = v.id
      ∧ (gateOne (fun p => decide (MIN_VIDEOS ≤ counterOf raw p)) v).title = v.title
      ∧ (gateOne (fun p => decide (MIN_VIDEOS ≤ counterOf raw p)) v).channel = v.channel
      ∧ (gateOne (fun p => decide (MIN_VIDEOS ≤ counterOf raw p)) v).team = v.team
      ∧ (gateOne (fun p => decide (MIN_VIDEOS ≤ counterOf raw p)) v).map = v.map
      ∧ (gateOne (fun p => decide (MIN_VIDEOS ≤ counterOf raw p)) v).published = v.published)
    ∧ (∀ p, v.player = some p → counterOf raw p < MIN_VIDEOS →
        (gateOne (fun p => decide (MIN_VIDEOS ≤ counterOf raw p)) v).player = none)
    ∧ (∀ p, v.player = some p → MIN_VIDEOS ≤ counterOf raw p →
        (gateOne (fun p => decide (MIN_VIDEOS ≤ counterOf raw p)) v).player = some p)
    ∧ (v.player = none →
        (gateOne (fun p => decide (MIN_VIDEOS ≤ counterOf raw p)) v).player = none) := by
  refine ⟨gateOne_fields _ v, ?_, ?_, ?_⟩
  · intro p hp hc
    rw [gateOne_player]
    simp only [hp]
    rw [if_neg]
    simp [Nat.not_le.mpr hc]
  · intro p hp hc
    rw [gateOne_player]
    simp only [hp]
    rw [if_pos]
    exact decide_eq_true hc
  · intro hp
    rw [gateOne_player]
    simp only [hp]

/-- Witness for C6: a below-threshold player is cleared while every other
field, team included, survives. -/
theorem c6_gate_frame_witness :
    (gateOne (fun p => decide (MIN_VIDEOS ≤ counterOf [] p)) sampleEntryMismatch).player = none
    ∧ (gateOne (fun p => decide (MIN_VIDEOS ≤ counterOf [] p)) sampleEntryMismatch).team
        = sampleEntryMismatch.team :=
  ⟨(c6_gate_frame [] sampleEntryMismatch).2.1 "fakernick" (by decide) (by decide),
   (c6_gate_frame [] sampleEntryMismatch).1.2.2.2.1⟩

/-- Claim C7: a failed ranking fetch yields the empty whitelist and empty
team map, the run still builds the catalogue (no record is dropped beyond
the window and Shorts filters), and every entry of that catalogue has a
null player and a null team. -/
theorem c7_degraded_whitelist :
    fetch_top_players none = ([], [])
    ∧ (∀ (runTime : Nat) (mapsOrder : List String) (durs : List (String × String))
        (records : List UploadRecord),
        mainPipeline runTime none mapsOrder durs records
          = runPipeline (cutoffOf runTime) [] [] mapsOrder durs records)
    ∧ ∀ (cutoff : Nat) (nickTeam : List (String × String)) (mapsOrder : List String)
        (durs : List (String × String)) (records : List UploadRecord),
        (∀ e ∈ runPipeline cutoff [] nickTeam mapsOrder durs records,
          e.player = none ∧ e.team = none)
        ∧ (runPipeline cutoff [] nickTeam mapsOrder durs records).length
            = (records.filterMap (recordEntry cutoff [] nickTeam mapsOrder durs)).length := by
  refine ⟨rfl, fun _ _ _ _ => rfl, ?_⟩
  intro cutoff nickTeam mapsOrder durs records
  refine ⟨?_, runPipeline_length cutoff [] nickTeam mapsOrder durs records⟩
  intro e he
  obtain ⟨v, hv, hev⟩ := mem_runPipeline.mp he
  obtain ⟨r, hr, hre⟩ := List.mem_filterMap.mp hv
  obtain ⟨-, -, -, -, -, hvp, hvt, -, -, -⟩ := recordEntry_some_spec hre
  rw [resolveNick_nil] at hvp hvt
  subst hev
  have hteam := (gateOne_fields (fun p => decide (MIN_VIDEOS ≤
    counterOf (records.filterMap (recordEntry cutoff [] nickTeam mapsOrder durs)) p)) v).2.2.2.1
  constructor
  · rw [gateOne_player]
    simp only [hvp]
  · rw [hteam, hvt]

/-- Witness for C7 at a concrete degraded run. -/
theorem c7_degraded_whitelist_witness :
    nullPlayerEntry.player = none ∧ nullPlayerEntry.team = none :=
  (c7_degraded_whitelist.2.2 (cutoffOf 1700000000) [] MAPS sampleDurs mismatchRecs).1
    nullPlayerEntry (by decide)

/-- Claim C8 fails on the code: the pipeline performs no deduplication by
id, so the same video id enumerated twice yields two catalogue entries
with the same id. -/
theorem c8_counterexample :
    (runPipeline (cutoffOf 1700000000) ["fakernick"] [("FakerNick", "T1")] MAPS sampleDurs
        [dupRec, dupRec]).map VideoEntry.id = ["v1", "v1"]
    ∧ ¬ ((runPipeline (cutoffOf 1700000000) ["fakernick"] [("FakerNick", "T1")] MAPS sampleDurs
        [dupRec, dupRec]).map VideoEntry.id).Nodup :=
  ⟨by decide, by decide⟩

/-- Claim C8 (amended): the pipeline introduces no duplicate of its own —
each enumerated record yields at most one entry carrying that record's
id — so whenever the enumerated records have pairwise distinct ids, the
ids of the output catalogue are pairwise distinct as well. -/
theorem c8_nodup_of_input_nodup {cutoff : Nat} {wlLc : List String}
    {nickTeam : List (String × String)} {mapsOrder : List String}
    {durs : List (String × String)} {records : List UploadRecord}
    (h : (records.map UploadRecord.id).Nodup) :
    ((runPipeline cutoff wlLc nickTeam mapsOrder durs records).map VideoEntry.id).Nodup := by
  have hraw : ((records.filterMap (recordEntry cutoff wlLc nickTeam mapsOrder durs)).map
      VideoEntry.id).Nodup :=
    h.sublist (filterMap_recordEntry_ids cutoff wlLc nickTeam mapsOrder durs records)
  have hgated : (((records.filterMap (recordEntry cutoff wlLc nickTeam mapsOrder durs)).map
      (gateOne (fun p => decide (MIN_VIDEOS ≤
        counterOf (records.filterMap (recordEntry cutoff wlLc nickTeam mapsOrder durs)) p)))).map
      VideoEntry.id).Nodup := by
    rw [List.map_map]
    have : VideoEntry.id ∘ gateOne (fun p => decide (MIN_VIDEOS ≤
        counterOf (records.filterMap (recordEntry cutoff wlLc nickTeam mapsOrder durs)) p))
        = VideoEntry.id := by
      funext v
      exact (gateOne_fields _ v).1
    rw [this]
    exact hraw
  have hperm : ((runPipeline cutoff wlLc nickTeam mapsOrder durs records).map
      VideoEntry.id).Perm
      (((records.filterMap (recordEntry cutoff wlLc nickTeam mapsOrder durs)).map
        (gateOne (fun p => decide (MIN_VIDEOS ≤
          counterOf (records.filterMap (recordEntry cutoff wlLc nickTeam mapsOrder durs)) p)))).map
        VideoEntry.id) :=
    (sortVids_perm _).map _
  exact hperm.symm.nodup hgated

/-- Witness for C8 (amended) at the ten distinct-id records. -/
theorem c8_nodup_of_input_nodup_witness :
    ((runPipeline (cutoffOf 1700000000) ["fakernick"] [("FakerNick", "T1")] MAPS sampleDurs
      mismatchRecs).map VideoEntry.id).Nodup :=
  @c8_nodup_of_input_nodup (cutoffOf 1700000000) ["fakernick"] [("FakerNick", "T1")] MAPS
    sampleDurs mismatchRecs (by decide)

/-- Claim C9 fails on the code: the map pick iterates the Python set
`MAPS`, whose string iteration order varies between interpreter
processes (hash randomisation), so two runs over identical upstream data
can serialize different catalogues when a title contains two map names.
Both enumeration orders below are permutations of `MAPS`. -/
theorem c9_counterexample :
    mapsOrderAlt.Perm MAPS
    ∧ serializeCatalog (runPipeline (cutoffOf 1700000000) ["fakernick"] [("FakerNick", "T1")]
        MAPS sampleDurs [twoMapRec])
      ≠ serializeCatalog (runPipeline (cutoffOf 1700000000) ["fakernick"] [("FakerNick", "T1")]
        mapsOrderAlt sampleDurs [twoMapRec]) :=
  ⟨by decide, by decide⟩

/-- Claim C9 (amended): the pipeline is a deterministic function of its
inputs together with the enumeration order of the `MAPS` set; two runs
over identical upstream data whose set enumeration orders agree up to
permutation produce byte-identical serializations provided no title
contains more than one known map name — the map pick on multi-map titles
is the only order-sensitive step. -/
theorem c9_deterministic_up_to_maps_order {cutoff : Nat} {wlLc : List String}
    {nickTeam : List (String × String)} {durs : List (String × String)}
    {records : List UploadRecord} {o1 o2 : List String}
    (hperm : o1.Perm o2)
    (hone : ∀ r ∈ records,
      (o1.filter (fun m => strContains (lowerStr r.title) m)).length ≤ 1) :
    runPipeline cutoff wlLc nickTeam o1 durs records
      = runPipeline cutoff wlLc nickTeam o2 durs records
    ∧ serializeCatalog (runPipeline cutoff wlLc nickTeam o1 durs records)
      = serializeCatalog (runPipeline cutoff wlLc nickTeam o2 durs records) := by
  have hre : ∀ r ∈ records, recordEntry cutoff wlLc nickTeam o1 durs r
      = recordEntry cutoff wlLc nickTeam o2 durs r := by
    intro r hr
    have hpick : pickMap o1 (lowerStr r.title) = pickMap o2 (lowerStr r.title) :=
      find?_eq_of_perm_of_at_most_one hperm (hone r hr)
    unfold recordEntry
    rw [hpick]
  have hmain := runPipeline_eq_of_raw_eq (List.filterMap_congr hre)
  exact ⟨hmain, congrArg serializeCatalog hmain⟩

/-- Witness for C9 (amended): with single-map titles the two enumeration
orders give the same run. -/
theorem c9_deterministic_up_to_maps_order_witness :
    runPipeline (cutoffOf 1700000000) ["fakernick"] [("FakerNick", "T1")] MAPS sampleDurs
        mismatchRecs
      = runPipeline (cutoffOf 1700000000) ["fakernick"] [("FakerNick", "T1")] mapsOrderAlt
        sampleDurs mismatchRecs :=
  (@c9_deterministic_up_to_maps_order (cutoffOf 1700000000) ["fakernick"]
    [("FakerNick", "T1")] sampleDurs mismatchRecs MAPS mapsOrderAlt
    (by decide) (by decide)).1

/-- Claim C10: a record whose id is absent from the duration response, or
whose ISO duration string does not fully match `PT#H#M#S`
(`duration_to_seconds` yields 0 for any such string), is credited 0
seconds — the same as a confirmed 0-second Short — and is excluded from
the catalogue exactly as such a Short is: removing it from the enumerated
records leaves the run unchanged. -/
theorem c10_unknown_duration_excluded :
    (∀ s, parseIsoDuration s = none → duration_to_seconds s = 0)
    ∧ (∀ (durs : List (String × String)) (vid : String),
        dictGet durs vid = none
          ∨ (∃ iso, dictGet durs vid = some iso ∧ parseIsoDuration iso = none) →
        effectiveDuration durs vid = duration_to_seconds "PT0S")
    ∧ ∀ (cutoff : Nat) (wlLc : List String) (nickTeam : List (String × String))
        (mapsOrder : List String) (durs : List (String × String))
        (recs1 recs2 : List UploadRecord) (r : UploadRecord),
        effectiveDuration durs r.id = 0 →
        runPipeline cutoff wlLc nickTeam mapsOrder durs (recs1 ++ r :: recs2)
          = runPipeline cutoff wlLc nickTeam mapsOrder durs (recs1 ++ recs2) := by
  refine ⟨?_, ?_, ?_⟩
  · intro s h
    unfold duration_to_seconds
    rw [h]
  · intro durs vid h
    have h0 : duration_to_seconds "PT0S" = 0 := by decide
    rw [h0]
    rcases h with h | ⟨iso, hiso, hparse⟩
    · simp only [effectiveDuration, h]
    · simp only [effectiveDuration, hiso, duration_to_seconds, hparse]
  · intro cutoff wlLc nickTeam mapsOrder durs recs1 recs2 r h
    apply runPipeline_eq_of_raw_eq
    simp only [List.filterMap_append, List.filterMap_cons, recordEntry_none_of_durZero h]

/-- Witness for C10: an unparsable string scores 0, an id missing from
the duration response is credited like `PT0S`, and the record with the
unknown id drops out of the concrete run. -/
theorem c10_unknown_duration_excluded_witness :
    duration_to_seconds "garbage" = 0
    ∧ effectiveDuration sampleDurs "vX" = duration_to_seconds "PT0S"
    ∧ runPipeline (cutoffOf 1700000000) ["fakernick"] [("FakerNick", "T1")] MAPS sampleDurs
        (unknownDurRec :: mismatchRecs)
      = runPipeline (cutoffOf 1700000000) ["fakernick"] [("FakerNick", "T1")] MAPS sampleDurs
        mismatchRecs :=
  ⟨c10_unknown_duration_excluded.1 "garbage" (by decide),
   c10_unknown_duration_excluded.2.1 sampleDurs "vX" (Or.inl (by decide)),
   c10_unknown_duration_excluded.2.2 (cutoffOf 1700000000) ["fakernick"] [("FakerNick", "T1")]
     MAPS sampleDurs [] mismatchRecs unknownDurRec (by decide)⟩
